import Mathlib

/-!
Verification of the redwood background-job engine: the PrismaAdapter
scheduling/claiming/failure protocol, the error-wrapping classes of
`src/packages/jobs/src/core/errors.ts`, and the worker signal handling of
the `rw-jobs-worker` entry script.  Stores are lists of rows, timestamps
are integer milliseconds since the epoch, SQL NULL is `Option.none`.
-/

namespace Redwood

/-- One row of the `BackgroundJob` table.  Columns and defaults follow
`MODEL_SCHEMA` in `src/packages/cli/src/commands/setup/jobs/jobsHandler.js`:
`attempts` defaults to 0, the `DateTime?`/`String?` columns to NULL. -/
structure JobRec where
  id : Nat
  handler : String
  queue : String
  priority : Int
  runAt : Option Int
  lockedAt : Option Int
  lockedBy : Option String
  attempts : Nat
  lastError : Option String
  failedAt : Option Int
  updatedAt : Int
deriving DecidableEq

/-- A JavaScript `Error` as the adapter and the wrappers see it: a name, a
message and an optional stack string. -/
structure JsError where
  name : String
  message : String
  stack : Option String
deriving DecidableEq

/-- Modelled from the spec: the backoff function of the adapter
(`PrismaAdapter.backoffMilliseconds`, absent from the sources; only its test
suite is present).  "backoffMilliseconds(n) = 1000 · n⁴". -/
def backoffMilliseconds (n : Nat) : Nat := 1000 * n ^ 4

/-- Modelled from the spec: "formatError must include error message and
stack trace (if available) joined with a newline". -/
def formatError (e : JsError) : String :=
  match e.stack with
  | some s => e.message ++ "\n" ++ s
  | none => e.message

/-- Default retry cap (`DEFAULT_MAX_ATTEMPTS` of the adapter): 24. -/
def DEFAULT_MAX_ATTEMPTS : Nat := 24

/-- Modelled from the spec: `PrismaAdapter.failure(record, error)` (source
absent; tests present).  `nextAttempt = record.attempts` (already
incremented at claim time).  Below the cap: reschedule with backoff and
clear the lock; at the cap: terminal failure. -/
def failure (r : JobRec) (e : JsError) (now : Int) (maxAttempts : Nat) : JobRec :=
  if r.attempts < maxAttempts then
    { r with
      runAt := some (now + (backoffMilliseconds r.attempts : Int)),
      lockedAt := none, lockedBy := none,
      lastError := some (formatError e), updatedAt := now }
  else
    { r with
      failedAt := some now, runAt := none,
      lockedAt := none, lockedBy := none,
      lastError := some (formatError e), updatedAt := now }

/-- The lock-freshness test of the claim algorithm:
`lockedAt IS NULL OR lockedAt < now − maxRuntime`. -/
def lockFree (now maxRuntime : Int) (r : JobRec) : Bool :=
  match r.lockedAt with
  | none => true
  | some t => decide (t < now - maxRuntime)

/-- Runnability: `runAt ≤ now`; a NULL `runAt` is never runnable (terminal-failed). -/
def runnable (now : Int) (r : JobRec) : Bool :=
  match r.runAt with
  | none => false
  | some t => decide (t ≤ now)

/-- The freshness conditions shared verbatim by candidate selection (step 1)
and the conditional update (step 3) of the claim algorithm. -/
def fresh (now maxRuntime : Int) (r : JobRec) : Bool :=
  lockFree now maxRuntime r && decide (r.failedAt = none) && runnable now r

/-- Queue filter: `queue IS NULL OR queue = :queue`. -/
def queueMatches (q : Option String) (r : JobRec) : Bool :=
  match q with
  | none => true
  | some qn => decide (r.queue = qn)

/-- Eligibility for candidate selection: freshness plus the queue filter. -/
def eligible (now maxRuntime : Int) (q : Option String) (r : JobRec) : Bool :=
  fresh now maxRuntime r && queueMatches q r

/-- Sort key for `runAt ASC`; eligible rows always have a non-NULL `runAt`. -/
def runAtKey (r : JobRec) : Int :=
  match r.runAt with
  | none => 0
  | some t => t

/-- Ordering `ORDER BY priority ASC, runAt ASC`: `a` strictly precedes `b`. -/
def beats (a b : JobRec) : Bool :=
  decide (a.priority < b.priority) ||
    (decide (a.priority = b.priority) && decide (runAtKey a < runAtKey b))

/-- Modelled from the spec: step 1 of the claim algorithm (optimistic read):
first row of the eligible rows in `(priority ASC, runAt ASC)` order, earlier
rows winning ties. -/
def pickCandidate (store : List JobRec) (now maxRuntime : Int)
    (q : Option String) : Option JobRec :=
  (store.filter (eligible now maxRuntime q)).foldl
    (fun acc r =>
      match acc with
      | none => some r
      | some b => if beats r b then some r else some b)
    none

/-- The conditional-update predicate of step 3:
`id = :id AND (lockedAt IS NULL OR lockedAt < now − maxRuntime) AND
failedAt IS NULL AND runAt ≤ now AND updatedAt = :preUpdatedAt`. -/
def claimPred (i : Nat) (preUpdatedAt now maxRuntime : Int) (r : JobRec) : Bool :=
  decide (r.id = i) && fresh now maxRuntime r && decide (r.updatedAt = preUpdatedAt)

/-- The `SET` clause of the conditional update:
`lockedAt = now, lockedBy = processName, attempts = attempts + 1`
(`updatedAt` is refreshed by the store on every update). -/
def claimData (now : Int) (processName : String) (r : JobRec) : JobRec :=
  { r with
    lockedAt := some now, lockedBy := some processName,
    attempts := r.attempts + 1, updatedAt := now }

/-- Modelled from the spec: steps 3–5 of the claim algorithm as one atomic
conditional update (the CAS).  Applies the update to every row matching
`claimPred`; if no row was affected another worker won the race and the
caller gets nothing. -/
def tryClaim (store : List JobRec) (j : JobRec) (processName : String)
    (now maxRuntime : Int) : Option JobRec × List JobRec :=
  if (store.filter (claimPred j.id j.updatedAt now maxRuntime)).length = 0 then
    (none, store.map (fun r =>
      if claimPred j.id j.updatedAt now maxRuntime r then
        claimData now processName r
      else r))
  else
    (some { j with attempts := j.attempts + 1 },
     store.map (fun r =>
       if claimPred j.id j.updatedAt now maxRuntime r then
         claimData now processName r
       else r))

/-- Modelled from the spec: `PrismaAdapter.find({processName, maxRuntime,
queue})` (source absent; tests present): optimistic read, then conditional
claim; null when nothing is eligible. -/
def find (store : List JobRec) (processName : String) (maxRuntime : Int)
    (q : Option String) (now : Int) : Option JobRec × List JobRec :=
  match pickCandidate store now maxRuntime q with
  | none => (none, store)
  | some j => tryClaim store j processName now maxRuntime

/-- JSON values, for the serialized handler payload. -/
inductive Json where
  | null : Json
  | bool : Bool → Json
  | num : Int → Json
  | str : String → Json
  | arr : List Json → Json
  | obj : List (String × Json) → Json

mutual

/-- Serialization as `JSON.stringify` renders it (string members that need no character escaping). -/
def Json.stringify : Json → String
  | Json.null => "null"
  | Json.bool true => "true"
  | Json.bool false => "false"
  | Json.num n => toString n
  | Json.str s => "\"" ++ s ++ "\""
  | Json.arr xs => "[" ++ Json.stringifyList xs ++ "]"
  | Json.obj fs => "\x7b" ++ Json.stringifyFields fs ++ "\x7d"

/-- Comma-joined serializations of array members. -/
def Json.stringifyList : List Json → String
  | [] => ""
  | [x] => Json.stringify x
  | x :: y :: xs => Json.stringify x ++ "," ++ Json.stringifyList (y :: xs)

/-- Comma-joined `"key":value` serializations of object members. -/
def Json.stringifyFields : List (String × Json) → String
  | [] => ""
  | [(k, v)] => "\"" ++ k ++ "\":" ++ Json.stringify v
  | (k, v) :: f :: fs =>
      "\"" ++ k ++ "\":" ++ Json.stringify v ++ "," ++ Json.stringifyFields (f :: fs)

end

/-- The argument of `schedule`: handler name, args, queue, priority, runAt. -/
structure ScheduleSpec where
  handler : String
  args : List Json
  queue : String
  priority : Int
  runAt : Option Int

/-- The persisted handler payload: `JSON.stringify({handler, args})`
(test expectation, `PrismaAdapter.test.js` lines 107–118). -/
def serializeHandler (handler : String) (args : List Json) : String :=
  Json.stringify (Json.obj [("handler", Json.str handler), ("args", Json.arr args)])

/-- Modelled from the spec: `PrismaAdapter.schedule(spec)` (source absent;
tests present).  Inserts one row whose `data` holds exactly the serialized
handler payload, queue, priority and runAt; the remaining columns take the
`MODEL_SCHEMA` defaults (`attempts` 0, NULL elsewhere). -/
def schedule (store : List JobRec) (nextId : Nat) (sp : ScheduleSpec)
    (now : Int) : JobRec × List JobRec :=
  let r : JobRec :=
    { id := nextId
      handler := serializeHandler sp.handler sp.args
      queue := sp.queue
      priority := sp.priority
      runAt := sp.runAt
      lockedAt := none
      lockedBy := none
      attempts := 0
      lastError := none
      failedAt := none
      updatedAt := now }
  (r, store ++ [r])

/-! ### Error wrappers (`src/packages/jobs/src/core/errors.ts`) -/

/-- Splitting on newline as the JavaScript string split method does it: successive chunks between newlines. -/
def splitNlAux : List Char → List Char → List String
  | [], acc => [String.mk acc.reverse]
  | c :: cs, acc =>
      if c = '\n' then String.mk acc.reverse :: splitNlAux cs []
      else splitNlAux cs (c :: acc)

/-- The lines of a string, as splitting it on newline produces them. -/
def splitNl (s : String) : List String := splitNlAux s.data []

/-- Line count of the message, `errors.ts` line 107: the number of newline
matches plus one. -/
def messageLines (message : String) : Nat := (splitNl message).length

/-- Lines 108–114 of `errors.ts`: the stack split on newline, its first
`messageLines + 1` lines rejoined with newlines, then a newline and the
original stack appended. -/
def spliceStack (message ownStack originalStack : String) : String :=
  String.intercalate "\n" ((splitNl ownStack).take (messageLines message + 1))
    ++ "\n" ++ originalStack

/-- The original stack as JavaScript string-concatenates it (the text `undefined` when absent). -/
def stackString (e : JsError) : String :=
  match e.stack with
  | some s => s
  | none => "undefined"

/-- A constructed `RethrownJobError` (or subclass): the wrapper object. -/
structure RethrownJob where
  name : String
  message : String
  originalError : JsError
  stackBeforeRethrow : Option String
  stack : String
deriving DecidableEq

/-- The `RethrownJobError` constructor (`errors.ts` lines 91–116).
`ownStack` is the `this.stack` the runtime synthesized for the wrapper
before splicing.  A missing (`null`/`undefined`) original error makes the
constructor throw, modelled as `Except.error` carrying the thrown message;
otherwise the original error is stored unmodified and the stack is spliced. -/
def mkRethrownJobError (className message : String) (error : Option JsError)
    (ownStack : String) : Except String RethrownJob :=
  match error with
  | none => Except.error "RethrownJobError requires a message and existing error object"
  | some e =>
      Except.ok
        { name := className
          message := message
          originalError := e
          stackBeforeRethrow := some ownStack
          stack := spliceStack message ownStack (stackString e) }

/-- The `SchedulingError` constructor (`errors.ts` lines 119–123): delegates
to `RethrownJobError`. -/
def mkSchedulingError (message : String) (error : Option JsError)
    (ownStack : String) : Except String RethrownJob :=
  mkRethrownJobError "SchedulingError" message error ownStack

/-- The `PerformError` constructor (`errors.ts` lines 126–130): delegates
to `RethrownJobError`. -/
def mkPerformError (message : String) (error : Option JsError)
    (ownStack : String) : Except String RethrownJob :=
  mkRethrownJobError "PerformError" message error ownStack

/-! ### Worker signal handling (`rw-jobs-worker` entry script) -/

/-- Observable worker-process state: the `forever` flag of the Worker, the
in-flight job, and whether the process has exited. -/
structure WorkerSt where
  forever : Bool
  inFlight : Bool
  exited : Bool
deriving DecidableEq

/-- Events a running worker process can observe: the two signals handled by
`setupSignals`, and the poll-loop steps (claim a job, finish the in-flight
job, or find nothing). -/
inductive WEvent where
  | sigint : WEvent
  | sigterm : WEvent
  | claimJob : WEvent
  | finishJob : WEvent
  | emptyPoll : WEvent
deriving DecidableEq

/-- One step of the worker process.  `SIGINT` only sets `worker.forever =
false` (`setupSignals`, the handler neither exits nor touches the in-flight
job); `SIGTERM` calls `process.exit(0)` immediately, whatever state the
worker is in.  Modelled from the spec, Worker loop of §4.4: a claim happens
only while `forever` holds and nothing is in flight; finishing the in-flight
job acknowledges it and, once `forever` is false, lets the loop exit. -/
def wstep (s : WorkerSt) (e : WEvent) : WorkerSt :=
  if s.exited then s
  else
    match e with
    | WEvent.sigint => { s with forever := false }
    | WEvent.sigterm => { s with exited := true }
    | WEvent.claimJob =>
        if s.forever && !s.inFlight then { s with inFlight := true } else s
    | WEvent.finishJob =>
        if s.inFlight then { s with inFlight := false, exited := !s.forever } else s
    | WEvent.emptyPoll =>
        if !s.inFlight && !s.forever then { s with exited := true } else s

/-- Run a worker through a list of events. -/
def wrun (s : WorkerSt) (tr : List WEvent) : WorkerSt := tr.foldl wstep s

/-- Whether the event, taken in the given state, claims a new job. -/
def claimFires (s : WorkerSt) (e : WEvent) : Bool :=
  !s.exited && decide (e = WEvent.claimJob) && s.forever && !s.inFlight

/-- How many events of the trace claim a new job, starting from `s`. -/
def claimsAfter (s : WorkerSt) : List WEvent → Nat
  | [] => 0
  | e :: tr => (if claimFires s e then 1 else 0) + claimsAfter (wstep s e) tr

/-! ### Concrete fixtures -/

/-- A runnable sample row: unlocked, never failed, due at time 0. -/
def sampleJob : JobRec :=
  { id := 1
    handler := "x"
    queue := "default"
    priority := 50
    runAt := some 0
    lockedAt := none
    lockedBy := none
    attempts := 0
    lastError := none
    failedAt := none
    updatedAt := 0 }

/-- The sample row after a claim bumped its `attempts`. -/
def sampleClaimed : JobRec := { sampleJob with attempts := 1 }

/-- The sample row freshly locked at time 49 by another worker. -/
def lockedJob : JobRec :=
  { sampleJob with lockedAt := some 49, lockedBy := some "workerX" }

/-- A sample JavaScript error with a stack. -/
def sampleErr : JsError :=
  { name := "Error"
    message := "test error"
    stack := some "Error: test error\n    at perform" }

end Redwood

namespace Redwood

/-! ### Helper lemmas -/

/-- Candidate selection yields nothing when no row is eligible. -/
theorem pickCandidate_eq_none (store : List JobRec) (now mr : Int)
    (q : Option String) (h : ∀ r ∈ store, eligible now mr q r = false) :
    pickCandidate store now mr q = none := by
  unfold pickCandidate
  have hfil : store.filter (eligible now mr q) = [] := by
    rw [List.filter_eq_nil_iff]
    intro a ha
    simp [h a ha]
  rw [hfil]
  rfl

/-- The store tryClaim leaves behind is always the conditional update. -/
theorem tryClaim_snd (store : List JobRec) (j : JobRec) (pn : String)
    (now mr : Int) :
    (tryClaim store j pn now mr).2 = store.map (fun r =>
      if claimPred j.id j.updatedAt now mr r then claimData now pn r else r) := by
  unfold tryClaim
  split <;> rfl

/-- The boolean conditional-update predicate, read as a proposition. -/
theorem claimPred_eq_true (i : Nat) (pre now mr : Int) (r : JobRec) :
    claimPred i pre now mr r = true ↔
      r.id = i ∧ lockFree now mr r = true ∧ r.failedAt = none
        ∧ runnable now r = true ∧ r.updatedAt = pre := by
  simp only [claimPred, fresh, Bool.and_eq_true, decide_eq_true_eq]
  tauto

/-- Associativity of string append. -/
theorem stringAppendAssoc (a b c : String) : a ++ b ++ c = a ++ (b ++ c) :=
  String.ext (by simp)

/-- Once `forever` is false nothing ever sets it back. -/
theorem wstep_keeps_forever_false (s : WorkerSt) (e : WEvent)
    (h : s.forever = false) : (wstep s e).forever = false := by
  obtain ⟨f, i, x⟩ := s
  cases f with
  | false => cases e <;> cases i <;> cases x <;> decide
  | true => simp at h

/-- A worker whose `forever` flag is down never claims another job. -/
theorem claimsAfter_zero (tr : List WEvent) :
    ∀ s : WorkerSt, s.forever = false → claimsAfter s tr = 0 := by
  induction tr with
  | nil => intro s _; rfl
  | cons e tr ih =>
      intro s h
      have hf : claimFires s e = false := by
        simp [claimFires, h]
      simp [claimsAfter, hf, ih _ (wstep_keeps_forever_false s e h)]

/-- A draining worker with a job in flight stays put until the job finishes
or a SIGTERM arrives. -/
theorem drain_state_constant (tr : List WEvent)
    (hterm : WEvent.sigterm ∉ tr) (hfin : WEvent.finishJob ∉ tr) :
    wrun { forever := false, inFlight := true, exited := false } tr
      = { forever := false, inFlight := true, exited := false } := by
  induction tr with
  | nil => rfl
  | cons e tr ih =>
      have hterm' : WEvent.sigterm ∉ tr := fun hm => hterm (List.mem_cons_of_mem e hm)
      have hfin' : WEvent.finishJob ∉ tr := fun hm => hfin (List.mem_cons_of_mem e hm)
      have he1 : e ≠ WEvent.sigterm := fun he => hterm (he ▸ List.mem_cons_self e tr)
      have he2 : e ≠ WEvent.finishJob := fun he => hfin (he ▸ List.mem_cons_self e tr)
      have hstep : wstep { forever := false, inFlight := true, exited := false } e
          = { forever := false, inFlight := true, exited := false } := by
        cases e
        · decide
        · exact absurd rfl he1
        · decide
        · exact absurd rfl he2
        · decide
      show wrun (wstep { forever := false, inFlight := true, exited := false } e) tr
          = { forever := false, inFlight := true, exited := false }
      rw [hstep]
      exact ih hterm' hfin'

/-- The serialized payload of the `schedule` test
(`PrismaAdapter.test.js` lines 107–118). -/
theorem serializeHandler_example :
    serializeHandler "RedwoodJob" [Json.str "foo", Json.str "bar"]
      = "\x7b\"handler\":\"RedwoodJob\",\"args\":[\"foo\",\"bar\"]\x7d" := by
  simp only [serializeHandler, Json.stringify, Json.stringifyList,
    Json.stringifyFields]
  decide

/-! ### Claim theorems -/

/-- C3: the backoff of the adapter is the quartic `1000 · n⁴`; in particular
it takes the five values asserted by the test suite of the adapter
(`backoffMilliseconds()` block of `PrismaAdapter.test.js`). -/
theorem backoff_quartic :
    (∀ n : Nat, backoffMilliseconds n = 1000 * n ^ 4) ∧
    backoffMilliseconds 0 = 0 ∧ backoffMilliseconds 1 = 1000 ∧
    backoffMilliseconds 2 = 16000 ∧ backoffMilliseconds 3 = 81000 ∧
    backoffMilliseconds 20 = 160000000 :=
  ⟨fun _ => rfl, by decide, by decide, by decide, by decide, by decide⟩

/-- C2: `failure` clears the lock and stores a formatted error starting with
the message of the error; below the attempts cap (default 24) it reschedules
`runAt = now + backoffMilliseconds(attempts)` and leaves `failedAt` as it
was (null for a claimed record); at the cap it sets `failedAt = now` and
nulls `runAt`, making the record terminal. -/
theorem failure_spec (r : JobRec) (e : JsError) (now : Int) (maxAttempts : Nat) :
    DEFAULT_MAX_ATTEMPTS = 24 ∧
    (failure r e now maxAttempts).lockedAt = none ∧
    (failure r e now maxAttempts).lockedBy = none ∧
    (∃ tail, (failure r e now maxAttempts).lastError = some (e.message ++ tail)) ∧
    (r.attempts < maxAttempts →
      (failure r e now maxAttempts).runAt
          = some (now + (backoffMilliseconds r.attempts : Int)) ∧
      (failure r e now maxAttempts).failedAt = r.failedAt) ∧
    (maxAttempts ≤ r.attempts →
      (failure r e now maxAttempts).failedAt = some now ∧
      (failure r e now maxAttempts).runAt = none) := by
  have hform : ∃ tail, formatError e = e.message ++ tail := by
    unfold formatError
    cases e.stack with
    | none => exact ⟨"", by simp⟩
    | some s => exact ⟨"\n" ++ s, by simp [stringAppendAssoc]⟩
  obtain ⟨tail, ht⟩ := hform
  refine ⟨rfl, ?_, ?_, ⟨tail, ?_⟩, ?_, ?_⟩
  · unfold failure; split <;> rfl
  · unfold failure; split <;> rfl
  · unfold failure; split <;> simp [ht]
  · intro h
    unfold failure
    rw [if_pos h]
    exact ⟨rfl, rfl⟩
  · intro h
    unfold failure
    rw [if_neg (Nat.not_lt.mpr h)]
    exact ⟨rfl, rfl⟩

/-- C9: a freshly scheduled record starts unlocked and non-terminal:
`attempts = 0` and NULL lock, error and failure columns, exactly the
`MODEL_SCHEMA` defaults, since `schedule` writes only handler, queue,
priority and runAt. -/
theorem scheduled_record_fresh (store : List JobRec) (nextId : Nat)
    (sp : ScheduleSpec) (now : Int) :
    (schedule store nextId sp now).1.attempts = 0 ∧
    (schedule store nextId sp now).1.lockedAt = none ∧
    (schedule store nextId sp now).1.lockedBy = none ∧
    (schedule store nextId sp now).1.lastError = none ∧
    (schedule store nextId sp now).1.failedAt = none :=
  ⟨rfl, rfl, rfl, rfl, rfl⟩

/-- C6: `schedule` persists one new record whose handler column holds
`JSON.stringify({handler, args})` and which carries the given queue,
priority and runAt. -/
theorem schedule_persists_payload (store : List JobRec) (nextId : Nat)
    (sp : ScheduleSpec) (now : Int) :
    (schedule store nextId sp now).1.handler
        = Json.stringify (Json.obj
            [("handler", Json.str sp.handler), ("args", Json.arr sp.args)]) ∧
    (schedule store nextId sp now).1.queue = sp.queue ∧
    (schedule store nextId sp now).1.priority = sp.priority ∧
    (schedule store nextId sp now).1.runAt = sp.runAt ∧
    (schedule store nextId sp now).2 = store ++ [(schedule store nextId sp now).1] :=
  ⟨rfl, rfl, rfl, rfl, rfl⟩

/-- C10: constructing a `RethrownJobError` — and hence a `SchedulingError`
or `PerformError` — with a missing original error throws instead of
producing a wrapper; with one supplied, it is retained unmodified in
`originalError`. -/
theorem rethrown_requires_original_error (className message ownStack : String)
    (e : JsError) :
    mkRethrownJobError className message none ownStack
        = Except.error "RethrownJobError requires a message and existing error object" ∧
    mkSchedulingError message none ownStack
        = Except.error "RethrownJobError requires a message and existing error object" ∧
    mkPerformError message none ownStack
        = Except.error "RethrownJobError requires a message and existing error object" ∧
    (∃ w, mkRethrownJobError className message (some e) ownStack = Except.ok w
        ∧ w.originalError = e) ∧
    (∃ w, mkSchedulingError message (some e) ownStack = Except.ok w
        ∧ w.originalError = e) ∧
    (∃ w, mkPerformError message (some e) ownStack = Except.ok w
        ∧ w.originalError = e) :=
  ⟨rfl, rfl, rfl, ⟨_, rfl, rfl⟩, ⟨_, rfl, rfl⟩, ⟨_, rfl, rfl⟩⟩

/-- C7: a wrapper built from message `m` and original error `e` has stack
equal to its own header — one line more than `m` has — followed by a
newline and the whole stack of `e`. -/
theorem rethrown_stack_concatenation (className m ownStack s : String)
    (e : JsError) (hs : e.stack = some s)
    (hlen : messageLines m + 1 ≤ (splitNl ownStack).length) :
    ∃ w, mkRethrownJobError className m (some e) ownStack = Except.ok w ∧
      w.stack = String.intercalate "\n"
          ((splitNl ownStack).take (messageLines m + 1)) ++ "\n" ++ s ∧
      ((splitNl ownStack).take (messageLines m + 1)).length
        = messageLines m + 1 := by
  refine ⟨_, rfl, ?_, ?_⟩
  · simp [spliceStack, stackString, hs]
  · rw [List.length_take]
    exact Nat.min_eq_left hlen

/-- C7 witness: the wrapper around a sample error splices the stacks. -/
theorem rethrown_stack_concatenation_witness :
    ∃ w, mkRethrownJobError "SchedulingError" "boom"
        (some { name := "Error", message := "x", stack := some "Error: x\n    at c" })
        "SchedulingError: boom\n    at a\n    at b" = Except.ok w ∧
      w.stack = String.intercalate "\n"
          ((splitNl "SchedulingError: boom\n    at a\n    at b").take
            (messageLines "boom" + 1)) ++ "\n" ++ "Error: x\n    at c" ∧
      ((splitNl "SchedulingError: boom\n    at a\n    at b").take
          (messageLines "boom" + 1)).length = messageLines "boom" + 1 :=
  rethrown_stack_concatenation "SchedulingError" "boom"
    "SchedulingError: boom\n    at a\n    at b" "Error: x\n    at c"
    { name := "Error", message := "x", stack := some "Error: x\n    at c" }
    rfl (by decide)

/-- C1: with nothing eligible, `find` returns null and leaves the store
unchanged; with a candidate, it claims it through the conditional update:
the new store locks exactly the rows passing the same freshness conditions
as the selection (plus the id and `updatedAt` pre-image checks), setting
`lockedAt = now`, `lockedBy = processName` and `attempts = attempts + 1`. -/
theorem find_claim_protocol (store : List JobRec) (pn : String)
    (mr : Int) (q : Option String) (now : Int) :
    ((∀ r ∈ store, eligible now mr q r = false) →
      find store pn mr q now = (none, store)) ∧
    (∀ j, pickCandidate store now mr q = some j →
      (find store pn mr q now).2 = store.map (fun r =>
        if r.id = j.id ∧ lockFree now mr r = true ∧ r.failedAt = none
            ∧ runnable now r = true ∧ r.updatedAt = j.updatedAt then
          { r with
            lockedAt := some now, lockedBy := some pn,
            attempts := r.attempts + 1, updatedAt := now }
        else r)) := by
  constructor
  · intro h
    unfold find
    rw [pickCandidate_eq_none store now mr q h]
  · intro j hj
    have h2 : (find store pn mr q now).2 = (tryClaim store j pn now mr).2 := by
      unfold find
      rw [hj]
    rw [h2, tryClaim_snd]
    congr 1
    funext r
    by_cases hc : claimPred j.id j.updatedAt now mr r = true
    · rw [if_pos hc, if_pos ((claimPred_eq_true j.id j.updatedAt now mr r).mp hc)]
      rfl
    · rw [if_neg hc,
        if_neg (fun hp => hc ((claimPred_eq_true j.id j.updatedAt now mr r).mpr hp))]

/-- C1 witness: a store whose only row holds a fresh foreign lock yields
null untouched; the runnable sample store gets the conditional update. -/
theorem find_claim_protocol_witness :
    find [lockedJob] "worker0" 100 (some "default") 50 = (none, [lockedJob]) ∧
    (find [sampleJob] "worker0" 100 none 0).2 = [sampleJob].map (fun r =>
      if r.id = sampleJob.id ∧ lockFree 0 100 r = true ∧ r.failedAt = none
          ∧ runnable 0 r = true ∧ r.updatedAt = sampleJob.updatedAt then
        { r with
          lockedAt := some (0 : Int), lockedBy := some "worker0",
          attempts := r.attempts + 1, updatedAt := (0 : Int) }
      else r) :=
  ⟨(find_claim_protocol [lockedJob] "worker0" 100 (some "default") 50).1
      (by decide),
   (find_claim_protocol [sampleJob] "worker0" 100 none 0).2 sampleJob (by decide)⟩

/-- C4: whenever the conditional update succeeds, `find` hands the caller
the candidate exactly as read in the selection step, with `attempts`
incremented by one. -/
theorem find_returns_incremented (store : List JobRec) (pn : String)
    (mr : Int) (q : Option String) (now : Int) (res : JobRec)
    (h : (find store pn mr q now).1 = some res) :
    ∃ j, pickCandidate store now mr q = some j
      ∧ res = { j with attempts := j.attempts + 1 } := by
  cases hj : pickCandidate store now mr q with
  | none =>
      unfold find at h
      rw [hj] at h
      exact absurd h (by simp)
  | some j =>
      refine ⟨j, rfl, ?_⟩
      have hfind : find store pn mr q now = tryClaim store j pn now mr := by
        unfold find
        rw [hj]
      rw [hfind] at h
      unfold tryClaim at h
      by_cases h0 : (store.filter (claimPred j.id j.updatedAt now mr)).length = 0
      · rw [if_pos h0] at h
        exact absurd h (by simp)
      · rw [if_neg h0] at h
        have h' : some { j with attempts := j.attempts + 1 } = some res := h
        exact (Option.some.inj h').symm

/-- C4 witness: claiming the runnable sample store returns the sample row
with `attempts` bumped from 0 to 1. -/
theorem find_returns_incremented_witness :
    ∃ j, pickCandidate [sampleJob] 0 100 none = some j
      ∧ sampleClaimed = { j with attempts := j.attempts + 1 } :=
  find_returns_incremented [sampleJob] "worker0" 100 none 0 sampleClaimed
    (by decide)

/-- C5: the conditional update is exclusive: once one CAS has locked a row,
a second CAS on the same id attempted within one `maxRuntime` window of the
first affects zero rows, so its caller receives nothing. -/
theorem concurrent_claim_exclusion (store : List JobRec) (jA jB : JobRec)
    (pnA pnB : String) (t1 t2 mr : Int)
    (hid : jB.id = jA.id)
    (hnodup : (store.map JobRec.id).Nodup)
    (hA : (tryClaim store jA pnA t1 mr).1 ≠ none)
    (hwin : t2 ≤ t1 + mr) :
    (tryClaim (tryClaim store jA pnA t1 mr).2 jB pnB t2 mr).1 = none := by
  have hlen : ¬(store.filter (claimPred jA.id jA.updatedAt t1 mr)).length = 0 := by
    intro h0
    apply hA
    unfold tryClaim
    rw [if_pos h0]
  obtain ⟨rstar, hrstar_mem, hrstar_pred⟩ :
      ∃ r ∈ store, claimPred jA.id jA.updatedAt t1 mr r = true := by
    have hne : store.filter (claimPred jA.id jA.updatedAt t1 mr) ≠ [] := by
      intro hnil
      exact hlen (by rw [hnil]; rfl)
    obtain ⟨r, hr⟩ := List.exists_mem_of_ne_nil _ hne
    exact ⟨r, (List.mem_filter.mp hr).1, (List.mem_filter.mp hr).2⟩
  rw [tryClaim_snd]
  have hempty : ((store.map (fun r =>
      if claimPred jA.id jA.updatedAt t1 mr r then claimData t1 pnA r
      else r)).filter (claimPred jB.id jB.updatedAt t2 mr)) = [] := by
    rw [List.filter_eq_nil_iff]
    intro x hx
    obtain ⟨r, hr_mem, hr_eq⟩ := List.mem_map.mp hx
    intro hxpred
    by_cases hpA : claimPred jA.id jA.updatedAt t1 mr r = true
    · rw [if_pos hpA] at hr_eq
      obtain ⟨-, hlock, -, -, -⟩ :=
        (claimPred_eq_true jB.id jB.updatedAt t2 mr x).mp hxpred
      rw [← hr_eq] at hlock
      have : decide (t1 < t2 - mr) = true := hlock
      have hlt : t1 < t2 - mr := of_decide_eq_true this
      omega
    · rw [if_neg hpA] at hr_eq
      subst hr_eq
      obtain ⟨hxid, -, -, -, -⟩ :=
        (claimPred_eq_true jB.id jB.updatedAt t2 mr r).mp hxpred
      obtain ⟨hsid, -, -, -, -⟩ :=
        (claimPred_eq_true jA.id jA.updatedAt t1 mr rstar).mp hrstar_pred
      have : r = rstar :=
        List.inj_on_of_nodup_map hnodup hr_mem hrstar_mem
          (by rw [hxid, hid, hsid])
      exact hpA (this ▸ hrstar_pred)
  unfold tryClaim
  rw [hempty]
  rfl

/-- C5 witness: the CAS of worker B at time 50 on the row worker A locked at
time 0 (window 100) claims nothing. -/
theorem concurrent_claim_exclusion_witness :
    (tryClaim (tryClaim [sampleJob] sampleJob "workerA" 0 100).2
        sampleJob "workerB" 50 100).1 = none :=
  concurrent_claim_exclusion [sampleJob] sampleJob sampleJob "workerA"
    "workerB" 0 50 100 rfl (by decide) (by decide) (by decide)

/-- C8: SIGINT only clears `forever` — the process neither exits nor drops
the in-flight job, and no new job is ever claimed afterwards — and a
draining worker does not exit while its job is unfinished; SIGTERM sets the
process exiting immediately, in-flight job or not. -/
theorem worker_signal_semantics (s : WorkerSt) (tr : List WEvent)
    (hs : s.exited = false)
    (hterm : WEvent.sigterm ∉ tr) (hfin : WEvent.finishJob ∉ tr) :
    wstep s WEvent.sigint = { s with forever := false } ∧
    claimsAfter (wstep s WEvent.sigint) tr = 0 ∧
    (wrun { forever := false, inFlight := true, exited := false } tr).exited
      = false ∧
    (wrun { forever := false, inFlight := true, exited := false } tr).inFlight
      = true ∧
    wstep s WEvent.sigterm = { s with exited := true } := by
  refine ⟨?_, ?_, ?_, ?_, ?_⟩
  · unfold wstep
    rw [if_neg (by rw [hs]; exact Bool.false_ne_true)]
  · refine claimsAfter_zero tr _ ?_
    unfold wstep
    rw [if_neg (by rw [hs]; exact Bool.false_ne_true)]
  · rw [drain_state_constant tr hterm hfin]
  · rw [drain_state_constant tr hterm hfin]
  · unfold wstep
    rw [if_neg (by rw [hs]; exact Bool.false_ne_true)]

/-- C8 witness: a busy running worker, over a trace with claims and polls
but no SIGTERM and no job completion. -/
theorem worker_signal_semantics_witness :
    wstep { forever := true, inFlight := true, exited := false } WEvent.sigint
        = { forever := false, inFlight := true, exited := false } ∧
    claimsAfter
        (wstep { forever := true, inFlight := true, exited := false }
          WEvent.sigint)
        [WEvent.claimJob, WEvent.emptyPoll, WEvent.sigint] = 0 ∧
    (wrun { forever := false, inFlight := true, exited := false }
        [WEvent.claimJob, WEvent.emptyPoll, WEvent.sigint]).exited = false ∧
    (wrun { forever := false, inFlight := true, exited := false }
        [WEvent.claimJob, WEvent.emptyPoll, WEvent.sigint]).inFlight = true ∧
    wstep { forever := true, inFlight := true, exited := false } WEvent.sigterm
        = { forever := true, inFlight := true, exited := true } :=
  worker_signal_semantics { forever := true, inFlight := true, exited := false }
    [WEvent.claimJob, WEvent.emptyPoll, WEvent.sigint] rfl (by decide) (by decide)

/-- C2 witness: failing the sample record (attempts 0, cap 24) at time 0. -/
theorem failure_spec_witness :
    DEFAULT_MAX_ATTEMPTS = 24 ∧
    (failure sampleJob sampleErr 0 24).lockedAt = none ∧
    (failure sampleJob sampleErr 0 24).lockedBy = none ∧
    (∃ tail, (failure sampleJob sampleErr 0 24).lastError
        = some (sampleErr.message ++ tail)) ∧
    (sampleJob.attempts < 24 →
      (failure sampleJob sampleErr 0 24).runAt
          = some (0 + (backoffMilliseconds sampleJob.attempts : Int)) ∧
      (failure sampleJob sampleErr 0 24).failedAt = sampleJob.failedAt) ∧
    (24 ≤ sampleJob.attempts →
      (failure sampleJob sampleErr 0 24).failedAt = some 0 ∧
      (failure sampleJob sampleErr 0 24).runAt = none) :=
  failure_spec sampleJob sampleErr 0 24

end Redwood
